import Mathlib

/-!
Shallow embedding of `triton_viz/interpreter.py`: the trace-recording core
(RecordBuilder state machine, tensor registry lookup, bounds checking, and the
contiguous-storage precondition check), together with theorems settling the
specification claims about it.

Conventions of the embedding:
* Python ints are `Int` (addresses, grid indices) or `Nat` (shapes, strides,
  element sizes, which are nonnegative in the source).
* A Python statement that can raise is a function into `Except VizError _`:
  a failed `assert` is `VizError.assertionError`, and indexing an empty list
  (`xs[-1]`, `xs[0]`) is `VizError.indexError`.
* numpy arrays of addresses/offsets/masks are flat `List`s; the source
  flattens the address batch itself (`np.reshape(ptrs.data, (-1))`) and all
  the array arithmetic is elementwise, so a flat list loses nothing.
-/

namespace TritonViz

/-- Runtime failures of the embedded code: a failed `assert` statement
(the spec's RangeError / LayoutError) and indexing into an empty list
(the spec's PreconditionError). -/
inductive VizError where
  | assertionError
  | indexError
deriving Repr, DecidableEq

/-- Tensor descriptor, as constructed in `_grid_executor_call`:
`Tensor(ret.handle.data[0], ret.dtype, arg.stride(), arg.shape, arg.element_size())`.
The class itself lives in `triton_viz/data.py` (not under `src/`); its field
list here is modelled from the spec's Tensor Descriptor
(base address, dtype, strides, shape, element size). -/
structure Tensor where
  ptr : Int
  dtype : String
  stride : List Nat
  shape : List Nat
  element_size : Nat
deriving Repr, DecidableEq

/-- Record variants. `data.py` is not under `src/`; the constructors and
fields are modelled from the spec's Record list (§3) and from the keyword
arguments the interpreter passes when building each record. Only the
`grid` marker's payload matters to the claims below. -/
inductive Record where
  | grid (idx : Int × Int × Int)
  | load (ptr : Int) (shape : List Nat) (offsets : List Int) (masks : List Bool)
      (invalid_access_masks : List Bool) (original_offsets : List Int)
      (original_mask : List Bool)
  | store (ptr : Int) (shape : List Nat) (offsets : List Int) (masks : List Bool)
      (invalid_access_masks : List Bool) (original_offsets : List Int)
      (original_mask : List Bool)
  | binaryOp (op : String) (input_shape : List Nat) (output_shape : List Nat)
  | makeRange (start stop : Int)
  | expandDims (input_shape : List Nat) (index : Int) (output_shape : List Nat)
  | dot (input_shape : List Nat × List Nat) (other_shape : List Nat)
      (output_shape : List Nat)
  | reduce (input_shape : List Nat) (index : Option Int) (op : String)
      (keep_dims : Bool) (output_shape : List Nat)
deriving Repr, DecidableEq

/-- `Launch(grid_dim, tensors, records)` as created by
`RecordBuilder.set_grid_dim`. -/
structure Launch where
  grid_shape : Int × Int × Int
  tensors : List Tensor
  records : List Record
deriving Repr, DecidableEq

/-- The mutable state of the `RecordBuilder` singleton (`reset` fields). -/
structure RecordBuilder where
  _launches : List Launch
  _sampling_grid_idx : Option (List Int)
  _grid_idx : Int × Int × Int
  _grid_dim : Int × Int × Int
deriving Repr, DecidableEq

/-- `RecordBuilder.reset` / `__init__`. -/
def RecordBuilder.reset : RecordBuilder :=
  { _launches := []
    _sampling_grid_idx := none
    _grid_idx := (0, 0, 0)
    _grid_dim := (1, 1, 1) }

/-- `set_sampling_grid_idx(idx)`. -/
def RecordBuilder.set_sampling_grid_idx (rb : RecordBuilder) (idx : List Int) :
    RecordBuilder :=
  { rb with _sampling_grid_idx := some idx }

/-- `set_grid_dim(nx, ny, nz)`: stores the dimensions and appends a fresh
empty `Launch`. -/
def RecordBuilder.set_grid_dim (rb : RecordBuilder) (nx ny nz : Int) :
    RecordBuilder :=
  { rb with
    _grid_dim := (nx, ny, nz)
    _launches := rb._launches ++ [⟨(nx, ny, nz), [], []⟩] }

/-- Apply `f` to the last element of a list, leaving the rest unchanged
(a Python mutation of `xs[-1]`). On `[]` there is no last element; callers
that would raise `IndexError` guard for that case themselves. -/
def modifyLast (f : Launch → Launch) : List Launch → List Launch
  | [] => []
  | [l] => [f l]
  | l :: l' :: rest => l :: modifyLast f (l' :: rest)

/-- A mutation of `self._launches[-1]`: Python raises `IndexError` when no
launch exists, otherwise updates the last launch in place. -/
def RecordBuilder.withLastLaunch (rb : RecordBuilder) (f : Launch → Launch) :
    Except VizError RecordBuilder :=
  match rb._launches with
  | [] => .error .indexError
  | _ :: _ => .ok { rb with _launches := modifyLast f rb._launches }

/-- `_to_1d_grid(idx)` from `RecordBuilder.add_record`, flattening a 1-, 2-
or 3-component index against the active `_grid_dim`; a Python index of any
other length falls off the `elif` chain and yields `None`. -/
def _to_1d_grid (dim : Int × Int × Int) (idx : List Int) : Option Int :=
  match idx with
  | [a] => some a
  | [a, b] => some (a * dim.2.1 + b)
  | [a, b, c] => some (a * dim.2.1 * dim.2.2 + b * dim.2.2 + c)
  | _ => none

/-- Python truthiness of `self._sampling_grid_idx`: falsy when `None` or the
empty tuple. -/
def truthyIdx : Option (List Int) → Bool
  | none => false
  | some [] => false
  | some (_ :: _) => true

/-- The guard of `add_record`:
`not self._sampling_grid_idx or _to_1d_grid(sampling) == _to_1d_grid(grid_idx)`. -/
def RecordBuilder.shouldRecord (rb : RecordBuilder) : Bool :=
  !truthyIdx rb._sampling_grid_idx ||
    (_to_1d_grid rb._grid_dim (rb._sampling_grid_idx.getD []) ==
      _to_1d_grid rb._grid_dim [rb._grid_idx.1, rb._grid_idx.2.1, rb._grid_idx.2.2])

/-- `add_record(record)`: appends to the active launch's record list when the
sampling guard passes (raising `IndexError` if no launch exists), and is a
no-op otherwise. -/
def RecordBuilder.add_record (rb : RecordBuilder) (record : Record) :
    Except VizError RecordBuilder :=
  if rb.shouldRecord then
    rb.withLastLaunch fun l => { l with records := l.records ++ [record] }
  else
    .ok rb

/-- `set_grid_idx(x, y, z)`: three `assert component < bound` statements
(no lower-bound check in the source), then updates `_grid_idx` and hands a
`Grid` marker to `add_record`. -/
def RecordBuilder.set_grid_idx (rb : RecordBuilder) (x y z : Int) :
    Except VizError RecordBuilder :=
  if x < rb._grid_dim.1 ∧ y < rb._grid_dim.2.1 ∧ z < rb._grid_dim.2.2 then
    RecordBuilder.add_record { rb with _grid_idx := (x, y, z) } (.grid (x, y, z))
  else
    .error .assertionError

/-- `add_tensors(tensors)`: extends the active launch's tensor list. -/
def RecordBuilder.add_tensors (rb : RecordBuilder) (tensors : List Tensor) :
    Except VizError RecordBuilder :=
  rb.withLastLaunch fun l => { l with tensors := l.tensors ++ tensors }

/-- Ascending order on tensors by base address, the `key=lambda x: x.ptr` of
`sort_tensor_handles`. -/
def tensorLe (a b : Tensor) : Prop := a.ptr ≤ b.ptr

instance : DecidableRel tensorLe := fun a b => Int.decLe a.ptr b.ptr

instance : IsTotal Tensor tensorLe := ⟨fun a b => Int.le_total a.ptr b.ptr⟩

instance : IsTrans Tensor tensorLe := ⟨fun _ _ _ hab hbc => le_trans hab hbc⟩

/-- `sort_tensor_handles()`: replaces the active launch's tensor list with the
same tensors sorted (Python `sorted` is an ascending stable sort, as is
`List.insertionSort`). -/
def RecordBuilder.sort_tensor_handles (rb : RecordBuilder) :
    Except VizError RecordBuilder :=
  rb.withLastLaunch fun l => { l with tensors := l.tensors.insertionSort tensorLe }

/-- The loop body of `get_tensor_ptr` after iteration `i = 0`: `best` is
`tensors[ret_idx]`, `rest` the tensors not yet compared. `if ptr < t.ptr`
breaks out returning `best`; otherwise `ret_idx` advances to `t`. -/
def get_tensor_ptr_go (best : Tensor) (rest : List Tensor) (ptr : Int) : Tensor :=
  match rest with
  | [] => best
  | t :: ts => if ptr < t.ptr then best else get_tensor_ptr_go t ts ptr

/-- `get_tensor_ptr(ptr)` over an explicit tensor list (the source reads
`self._launches[-1].tensors`, the active registry; the spec's BoundsChecker
takes the registry as an input). `ret_idx` starts at `0`, so on an empty list
`tensors[ret_idx]` raises `IndexError`; on a non-empty list the `i = 0`
iteration leaves `ret_idx = 0` whether or not it breaks, which is
`get_tensor_ptr_go` started at the head. -/
def get_tensor_ptr (tensors : List Tensor) (ptr : Int) : Except VizError Tensor :=
  match tensors with
  | [] => .error .indexError
  | t :: ts => .ok (get_tensor_ptr_go t ts ptr)

/-- `np.prod` over a shape tuple (`np.prod([]) = 1`). -/
def npProd (l : List Nat) : Nat := l.foldl (· * ·) 1

/-- `check_out_of_bounds_access(ptrs)` over the flattened address batch and an
explicit registry. An empty batch makes `np.reshape(ptrs.data, (-1))[0]`
raise `IndexError`; otherwise the owning tensor is resolved from the first
address and the masks are computed elementwise exactly as in the source. -/
def check_out_of_bounds_access (tensors : List Tensor) (ptrs : List Int) :
    Except VizError (Tensor × List Bool × List Bool × List Int × List Int) :=
  match ptrs with
  | [] => .error .indexError
  | first_ptr :: _ => do
    let tensor_ptr ← get_tensor_ptr tensors first_ptr
    let offsets := ptrs.map fun p => p - tensor_ptr.ptr
    let max_valid_offset : Int := (npProd tensor_ptr.shape : Int) * tensor_ptr.element_size
    let valid_access_mask := offsets.map fun o =>
      decide (0 ≤ o) && decide (o < max_valid_offset)
    let invalid_access_mask := valid_access_mask.map (! ·)
    let corrected_offsets := (offsets.zip valid_access_mask).map fun p =>
      if p.2 then p.1 else 0
    return (tensor_ptr, valid_access_mask, invalid_access_mask, corrected_offsets,
      offsets)

/-- The walk of `_check_storage_contiguous` from its second dimension on:
for every remaining sorted index, `stride != shape_prod` fails, and the
running product is multiplied by that dimension's extent. -/
def contigRest (shape stride : List Nat) : List Nat → Nat → Bool
  | [], _ => true
  | idx :: rest, shape_prod =>
    if stride.getD idx 0 = shape_prod then
      contigRest shape stride rest (shape_prod * shape.getD idx 0)
    else
      false

/-- `sorted(range(len(stride)), key=stride.__getitem__)`: the dimension
indices in ascending order of stride value (Python `sorted` is stable, as is
`List.insertionSort`). -/
def walkedIndices (stride : List Nat) : List Nat :=
  (List.range stride.length).insertionSort fun a b =>
    stride.getD a 0 ≤ stride.getD b 0

/-- `_check_storage_contiguous(tensor)` over the tensor's shape and stride
tuples. The loop's `i == 0` iteration — `stride != 1` fails, then
`shape_prod` becomes `1 * shape[i0]` — is unrolled as the head case; the
`i != 0` iterations are `contigRest`. -/
def _check_storage_contiguous (shape stride : List Nat) : Bool :=
  match walkedIndices stride with
  | [] => true
  | i0 :: rest =>
    if stride.getD i0 0 = 1 then
      contigRest shape stride rest (shape.getD i0 0)
    else
      false

/-- One kernel argument as seen by the argument loop of
`_grid_executor_call`: whether its name is in `self.constexprs`, whether it
has a `data_ptr` attribute (i.e. is a tensor), and — when it is a tensor —
the converted base address `ret.handle.data[0]`, dtype, strides, shape and
element size used to build the `Tensor` record. -/
structure PyArg where
  is_constexpr : Bool
  has_data_ptr : Bool
  data : Int
  dtype : String
  stride : List Nat
  shape : List Nat
  element_size : Nat
deriving Repr, DecidableEq

/-- The argument loop of `_grid_executor_call`: constexpr and non-tensor
arguments contribute nothing; each tensor argument is asserted contiguous
(`AssertionError` aborts the whole call at the first failure) and collected,
in order, into the local `tensors` list. -/
def collectTensors : List PyArg → Except VizError (List Tensor)
  | [] => .ok []
  | a :: rest =>
    if a.is_constexpr then
      collectTensors rest
    else if a.has_data_ptr then
      if _check_storage_contiguous a.shape a.stride then do
        let ts ← collectTensors rest
        return ⟨a.data, a.dtype, a.stride, a.shape, a.element_size⟩ :: ts
      else
        .error .assertionError
    else
      collectTensors rest

/-- The grid cells in the source's fixed nested iteration order:
`x` outermost, then `y`, then `z`, each from `0` to its bound exclusive. -/
def cellList (grid : Int × Int × Int) : List (Int × Int × Int) :=
  (List.range grid.1.toNat).flatMap fun x =>
    (List.range grid.2.1.toNat).flatMap fun y =>
      (List.range grid.2.2.toNat).map fun z => ((x : Int), (y : Int), (z : Int))

/-- The grid iteration of `_grid_executor_call`, restricted to the record
machinery: each visited cell runs `record_builder.set_grid_idx(x, y, z)`.
(The kernel body `self.fn(**call_args)` belongs to the excluded
instrumentation layer; records it appends are not modelled here.) -/
def cellFold (rb : RecordBuilder) : List (Int × Int × Int) →
    Except VizError RecordBuilder
  | [] => .ok rb
  | c :: cs => do
    let rb' ← rb.set_grid_idx c.1 c.2.1 c.2.2
    cellFold rb' cs

/-- `_grid_executor_call`, restricted to its effect on `record_builder`: the
argument loop validates and collects the tensor arguments (before any state
is touched — `set_grid_dim`, `add_tensors`, `sort_tensor_handles` and the
grid iteration all come after the loop), then opens the launch, registers and
sorts the tensors, and iterates the grid cells. -/
def _grid_executor_call (rb : RecordBuilder) (args : List PyArg)
    (grid : Int × Int × Int) : Except VizError RecordBuilder := do
  let tensors ← collectTensors args
  let rb1 := rb.set_grid_dim grid.1 grid.2.1 grid.2.2
  let rb2 ← rb1.add_tensors tensors
  let rb3 ← rb2.sort_tensor_handles
  cellFold rb3 (cellList grid)

/-- The records of the most recently opened launch (`[]` when no launch is
open). -/
def lastRecords (rb : RecordBuilder) : List Record :=
  match rb._launches.getLast? with
  | some l => l.records
  | none => []

/-- The tensor registry of the most recently opened launch (`[]` when no
launch is open). -/
def lastTensors (rb : RecordBuilder) : List Tensor :=
  match rb._launches.getLast? with
  | some l => l.tensors
  | none => []

/-! Spec-side definitions: phrased from the claims' words, to be compared
with the source-derived definitions above. -/

/-- The claims' acceptance condition for `add_record`: no sampling target is
set, or the flattened sampling target equals the flattened active grid index
(flattening as the claims spell it out, which is `_to_1d_grid`). -/
def claimAccepts (rb : RecordBuilder) : Prop :=
  rb._sampling_grid_idx = none ∨
    ∃ s, rb._sampling_grid_idx = some s ∧
      _to_1d_grid rb._grid_dim s =
        _to_1d_grid rb._grid_dim [rb._grid_idx.1, rb._grid_idx.2.1, rb._grid_idx.2.2]

/-- A sampling target as the spec admits them: unset, or a 1-, 2- or
3-component index. -/
def samplingOk (rb : RecordBuilder) : Prop :=
  rb._sampling_grid_idx = none ∨
    ∃ s, rb._sampling_grid_idx = some s ∧
      (s.length = 1 ∨ s.length = 2 ∨ s.length = 3)

/-! Concrete inputs for the scenario parts of the claims. -/

/-- The bounds-check scenario's tensor: base 1000, shape (4, 4),
element size 4. -/
def scenarioTensor : Tensor := ⟨1000, "float32", [4, 1], [4, 4], 4⟩

/-- The sampling-filter scenario: grid (2, 2, 1), sampling target (0, 1),
then the four grid cells in iteration order. -/
def samplingScenario : Except VizError RecordBuilder :=
  cellFold ((RecordBuilder.reset.set_grid_dim 2 2 1).set_sampling_grid_idx [0, 1])
    [(0, 0, 0), (0, 1, 0), (1, 0, 0), (1, 1, 0)]

/-- A builder with one open launch of grid shape (2, 2, 1). -/
def rbTwo : RecordBuilder := RecordBuilder.reset.set_grid_dim 2 2 1

/-- Two registry tensors with distinct base addresses. -/
def tensorA : Tensor := ⟨100, "int32", [1], [8], 4⟩

/-- See `tensorA`. -/
def tensorB : Tensor := ⟨200, "int32", [1], [4], 4⟩

/-- A builder whose open launch registered `tensorB` before `tensorA`
(descending base order). -/
def rbUnsorted : RecordBuilder :=
  { rbTwo with _launches := [⟨(2, 2, 1), [tensorB, tensorA], []⟩] }

/-- A kernel tensor argument whose strides (8, 2) fail the contiguity
check. -/
def badArg : PyArg :=
  { is_constexpr := false
    has_data_ptr := true
    data := 1000
    dtype := "float32"
    stride := [8, 2]
    shape := [4, 4]
    element_size := 4 }

/-! Helper lemmas. -/

theorem getD_map_of_lt {α β : Type} (f : α → β) (l : List α) (d' : β) (d : α)
    (k : Nat) (hk : k < l.length) : (l.map f).getD k d' = f (l.getD k d) := by
  rw [List.getD_eq_getElem _ _ (by simpa using hk), List.getD_eq_getElem _ _ hk,
    List.getElem_map]

theorem getD_zip_of_lt {α β : Type} (l1 : List α) (l2 : List β) (d1 : α) (d2 : β)
    (k : Nat) (h1 : k < l1.length) (h2 : k < l2.length) :
    (l1.zip l2).getD k (d1, d2) = (l1.getD k d1, l2.getD k d2) := by
  have hz : k < (l1.zip l2).length := by
    rw [List.length_zip]; exact lt_min h1 h2
  rw [List.getD_eq_getElem _ _ hz, List.getD_eq_getElem _ _ h1,
    List.getD_eq_getElem _ _ h2, List.getElem_zip]

theorem getLast?_modifyLast (f : Launch → Launch) :
    ∀ l : List Launch, (modifyLast f l).getLast? = l.getLast?.map f := by
  intro l
  induction l with
  | nil => rfl
  | cons a t ih =>
    cases t with
    | nil => rfl
    | cons b rest =>
      rw [modifyLast, List.getLast?_cons_cons, ← ih]
      cases rest with
      | nil => rfl
      | cons c rest' => rw [modifyLast, List.getLast?_cons_cons]

theorem modifyLast_ne_nil (f : Launch → Launch) (l : List Launch) (h : l ≠ []) :
    modifyLast f l ≠ [] := by
  cases l with
  | nil => exact absurd rfl h
  | cons a t => cases t with
    | nil => simp [modifyLast]
    | cons b rest => simp [modifyLast]

/-- The walk from the second sorted dimension on accepts exactly the strides
that equal the running prefix products seeded with `p`. -/
theorem contigRest_iff (shape stride : List Nat) :
    ∀ (l : List Nat) (p : Nat),
      contigRest shape stride l p = true ↔
        ∀ k, k < l.length →
          stride.getD (l.getD k 0) 0 =
            p * ((l.take k).map fun j => shape.getD j 0).prod := by
  intro l
  induction l with
  | nil => intro p; simp [contigRest]
  | cons idx rest ih =>
    intro p
    rw [contigRest]
    by_cases h : stride.getD idx 0 = p
    · rw [if_pos h, ih]
      constructor
      · intro hr k hk
        cases k with
        | zero => simpa using h
        | succ k =>
          have hk' : k < rest.length := by simpa using hk
          have hk2 := hr k hk'
          simp only [List.getD_cons_succ, List.take_succ_cons, List.map_cons,
            List.prod_cons]
          rw [hk2]; ring
      · intro hall k hk
        have hk2 := hall (k + 1) (by simpa using Nat.succ_lt_succ hk)
        simp only [List.getD_cons_succ, List.take_succ_cons, List.map_cons,
          List.prod_cons] at hk2
        rw [hk2]; ring
    · rw [if_neg h]
      simp only [Bool.false_eq_true, false_iff]
      intro hall
      exact h (by simpa using hall 0 (Nat.succ_pos _))

/-- C3: the contiguity check returns true iff, walking the dimensions in
ascending order of stride, every walked dimension's stride equals the running
product of the shape extents walked before it (for the smallest-stride
dimension that product is the initial 1, i.e. its stride must be exactly 1);
in particular shape (4, 4) with strides (4, 1) is accepted and shape (4, 4)
with strides (8, 2) is rejected. -/
theorem check_storage_contiguous_spec :
    (∀ shape stride : List Nat,
      _check_storage_contiguous shape stride = true ↔
        ∀ k, k < (walkedIndices stride).length →
          stride.getD ((walkedIndices stride).getD k 0) 0 =
            (((walkedIndices stride).take k).map fun j => shape.getD j 0).prod) ∧
    _check_storage_contiguous [4, 4] [4, 1] = true ∧
    _check_storage_contiguous [4, 4] [8, 2] = false := by
  refine ⟨?_, by decide, by decide⟩
  intro shape stride
  unfold _check_storage_contiguous
  cases hw : walkedIndices stride with
  | nil => simp
  | cons i0 rest =>
    dsimp only
    by_cases h0 : stride.getD i0 0 = 1
    · rw [if_pos h0, contigRest_iff]
      constructor
      · intro hr k hk
        cases k with
        | zero => simpa using h0
        | succ k =>
          have hk' : k < rest.length := by simpa using hk
          have hk2 := hr k hk'
          simp only [List.getD_cons_succ, List.take_succ_cons, List.map_cons,
            List.prod_cons]
          rw [hk2]
      · intro hall k hk
        have hk2 := hall (k + 1) (by simpa using Nat.succ_lt_succ hk)
        simp only [List.getD_cons_succ, List.take_succ_cons, List.map_cons,
          List.prod_cons] at hk2
        rw [hk2]
    · rw [if_neg h0]
      simp only [Bool.false_eq_true, false_iff]
      intro hall
      exact h0 (by simpa using hall 0 (Nat.succ_pos _))

/-- C10: shape (4, 1) with strides (1, 1) is rejected: the two dimensions
share stride 1, so the dimension walked second would need stride equal to the
accumulated shape product 4 and fails. -/
theorem check_storage_contiguous_rejects_duplicate_stride :
    _check_storage_contiguous [4, 1] [1, 1] = false := by decide

theorem withLastLaunch_ok (rb : RecordBuilder) (f : Launch → Launch)
    (hl : rb._launches ≠ []) :
    rb.withLastLaunch f = .ok { rb with _launches := modifyLast f rb._launches } := by
  rw [RecordBuilder.withLastLaunch]
  cases h : rb._launches with
  | nil => exact absurd h hl
  | cons a t => rfl

theorem getLast?_of_ne_nil (l : List Launch) (hl : l ≠ []) :
    ∃ last, l.getLast? = some last := by
  cases h : l.getLast? with
  | some last => exact ⟨last, rfl⟩
  | none => exact absurd (List.getLast?_eq_none_iff.mp h) hl

theorem last_of_modifyLast (rb : RecordBuilder) (f : Launch → Launch)
    (hl : rb._launches ≠ []) :
    ∃ last, rb._launches.getLast? = some last ∧
      lastRecords rb = last.records ∧ lastTensors rb = last.tensors ∧
      lastRecords { rb with _launches := modifyLast f rb._launches } =
        (f last).records ∧
      lastTensors { rb with _launches := modifyLast f rb._launches } =
        (f last).tensors := by
  obtain ⟨last, hlast⟩ := getLast?_of_ne_nil rb._launches hl
  refine ⟨last, hlast, ?_, ?_, ?_, ?_⟩ <;>
    simp [lastRecords, lastTensors, getLast?_modifyLast, hlast]

/-- The loop of `get_tensor_ptr` on a sorted registry: the result is a
registered tensor, it is an upper bound of every base address that is
`≤ addr`, its own base is `≤ addr` whenever the running best's is, and when
`addr` is below the running best's base the loop returns the running best. -/
theorem get_tensor_ptr_go_spec (addr : Int) :
    ∀ (rest : List Tensor) (best : Tensor),
      List.Sorted tensorLe (best :: rest) →
      get_tensor_ptr_go best rest addr ∈ best :: rest ∧
      (∀ u ∈ best :: rest, u.ptr ≤ addr →
        u.ptr ≤ (get_tensor_ptr_go best rest addr).ptr) ∧
      (best.ptr ≤ addr → (get_tensor_ptr_go best rest addr).ptr ≤ addr) ∧
      (addr < best.ptr → get_tensor_ptr_go best rest addr = best) := by
  intro rest
  induction rest with
  | nil =>
    intro best _
    refine ⟨List.mem_singleton_self _, ?_, fun h => h, fun _ => rfl⟩
    intro u hu hle
    rw [List.mem_singleton] at hu
    exact hu ▸ le_refl _
  | cons t ts ih =>
    intro best hsorted
    obtain ⟨hall, htail⟩ := List.sorted_cons.mp hsorted
    have hbt : best.ptr ≤ t.ptr := hall t (List.mem_cons_self t ts)
    rw [get_tensor_ptr_go]
    by_cases hlt : addr < t.ptr
    · rw [if_pos hlt]
      refine ⟨List.mem_cons_self best (t :: ts), ?_, fun h => h, fun _ => rfl⟩
      intro u hu hule
      rcases List.mem_cons.mp hu with h | h
      · exact h ▸ le_refl _
      · have htu : t.ptr ≤ u.ptr := by
          rcases List.mem_cons.mp h with h' | h'
          · exact h' ▸ le_refl _
          · exact (List.sorted_cons.mp htail).1 u h'
        exact absurd (lt_of_le_of_lt (le_trans htu hule) hlt) (lt_irrefl _)
    · rw [if_neg hlt]
      push_neg at hlt
      obtain ⟨hmem, hmax, hle, _⟩ := ih t htail
      refine ⟨List.mem_cons_of_mem _ hmem, ?_, fun _ => hle hlt, ?_⟩
      · intro u hu hule
        rcases List.mem_cons.mp hu with h | h
        · exact h ▸ le_trans hbt (hmax t (List.mem_cons_self t ts) hlt)
        · exact hmax u h hule
      · intro habs
        exact absurd (lt_of_lt_of_le habs (le_trans hbt hlt)) (lt_irrefl _)

/-- C2: on a non-empty registry sorted ascending by base address,
`get_tensor_ptr` returns the tensor with the greatest base address `≤ addr`,
the tensor whose base equals `addr` when one exists, and the first tensor in
sorted order when `addr` is below every base (no not-found case). -/
theorem get_tensor_ptr_floor_lookup (tensors : List Tensor) (addr : Int)
    (hne : tensors ≠ []) (hsorted : List.Sorted tensorLe tensors) :
    ∃ t, get_tensor_ptr tensors addr = .ok t ∧ t ∈ tensors ∧
      (∀ u ∈ tensors, u.ptr ≤ addr → u.ptr ≤ t.ptr) ∧
      ((∃ u ∈ tensors, u.ptr ≤ addr) → t.ptr ≤ addr) ∧
      ((∃ u ∈ tensors, u.ptr = addr) → t.ptr = addr) ∧
      ((∀ u ∈ tensors, addr < u.ptr) → tensors.head? = some t) := by
  cases tensors with
  | nil => exact absurd rfl hne
  | cons t0 ts =>
    obtain ⟨hmem, hmax, hle, hbest⟩ := get_tensor_ptr_go_spec addr ts t0 hsorted
    have hfloor : (∃ u ∈ t0 :: ts, u.ptr ≤ addr) →
        (get_tensor_ptr_go t0 ts addr).ptr ≤ addr := by
      rintro ⟨u, hu, hule⟩
      have h0 : t0.ptr ≤ addr := by
        rcases List.mem_cons.mp hu with h | h
        · exact h ▸ hule
        · exact le_trans ((List.sorted_cons.mp hsorted).1 u h) hule
      exact hle h0
    refine ⟨get_tensor_ptr_go t0 ts addr, rfl, hmem, hmax, hfloor, ?_, ?_⟩
    · rintro ⟨u, hu, hueq⟩
      have h1 : addr ≤ (get_tensor_ptr_go t0 ts addr).ptr :=
        hueq ▸ hmax u hu (le_of_eq hueq)
      exact le_antisymm (hfloor ⟨u, hu, le_of_eq hueq⟩) h1
    · intro hallgt
      rw [hbest (hallgt t0 (List.mem_cons_self t0 ts))]
      rfl

/-- Witness for C2 at a concrete sorted registry and an address strictly
between the two bases (the floor is `tensorA`). -/
theorem get_tensor_ptr_floor_lookup_witness :
    ∃ t, get_tensor_ptr [tensorA, tensorB] 150 = .ok t ∧ t ∈ [tensorA, tensorB] ∧
      (∀ u ∈ [tensorA, tensorB], u.ptr ≤ 150 → u.ptr ≤ t.ptr) ∧
      ((∃ u ∈ [tensorA, tensorB], u.ptr ≤ 150) → t.ptr ≤ 150) ∧
      ((∃ u ∈ [tensorA, tensorB], u.ptr = 150) → t.ptr = 150) ∧
      ((∀ u ∈ [tensorA, tensorB], 150 < u.ptr) →
        List.head? [tensorA, tensorB] = some t) :=
  get_tensor_ptr_floor_lookup [tensorA, tensorB] 150 (by decide) (by decide)

/-- C9: `sort_tensor_handles` leaves the active launch's tensor list a
permutation of the registered tensors, sorted ascending by base address. -/
theorem sort_tensor_handles_sorts (rb : RecordBuilder) (hl : rb._launches ≠ []) :
    ∃ rb', rb.sort_tensor_handles = .ok rb' ∧
      List.Perm (lastTensors rb') (lastTensors rb) ∧
      List.Sorted tensorLe (lastTensors rb') := by
  rw [RecordBuilder.sort_tensor_handles, withLastLaunch_ok rb _ hl]
  obtain ⟨last, _, _, hold, _, hnew⟩ := last_of_modifyLast rb
    (fun l => { l with tensors := l.tensors.insertionSort tensorLe }) hl
  refine ⟨_, rfl, ?_, ?_⟩
  · rw [hnew, hold]
    exact List.perm_insertionSort tensorLe last.tensors
  · rw [hnew]
    exact List.sorted_insertionSort tensorLe last.tensors

/-- Witness for C9: sorting the launch that registered `tensorB` before
`tensorA`. -/
theorem sort_tensor_handles_sorts_witness :
    ∃ rb', rbUnsorted.sort_tensor_handles = .ok rb' ∧
      List.Perm (lastTensors rb') (lastTensors rbUnsorted) ∧
      List.Sorted tensorLe (lastTensors rb') :=
  sort_tensor_handles_sorts rbUnsorted (by decide)

theorem add_record_ok (rb : RecordBuilder) (r : Record) (hl : rb._launches ≠ []) :
    ∃ rb', rb.add_record r = .ok rb' ∧
      (rb.shouldRecord = true → lastRecords rb' = lastRecords rb ++ [r]) ∧
      (rb.shouldRecord = false → rb' = rb) ∧
      rb'._grid_idx = rb._grid_idx := by
  rw [RecordBuilder.add_record]
  by_cases hs : rb.shouldRecord = true
  · rw [if_pos hs, withLastLaunch_ok rb _ hl]
    obtain ⟨last, _, hold, _, hnewr, _⟩ := last_of_modifyLast rb
      (fun l => { l with records := l.records ++ [r] }) hl
    refine ⟨_, rfl, fun _ => ?_, fun hfalse => absurd hs (by simp [hfalse]), rfl⟩
    rw [hnewr, hold]
  · rw [if_neg hs]
    exact ⟨rb, rfl, fun htrue => absurd htrue hs, fun _ => rfl, rfl⟩

theorem shouldRecord_iff_claimAccepts (rb : RecordBuilder) (hs : samplingOk rb) :
    rb.shouldRecord = true ↔ claimAccepts rb := by
  rcases hs with hnone | ⟨s, hset, hlen⟩
  · simp [RecordBuilder.shouldRecord, truthyIdx, hnone, claimAccepts]
  · cases s with
    | nil => simp at hlen
    | cons a t =>
      simp only [RecordBuilder.shouldRecord, claimAccepts, hset, Option.getD_some,
        truthyIdx, Bool.not_true, Bool.false_or, beq_iff_eq]
      constructor
      · intro h
        exact Or.inr ⟨a :: t, rfl, h⟩
      · rintro (h | ⟨s', hs', hflat⟩)
        · exact absurd h (by simp)
        · injection hs' with hs''
          exact hs'' ▸ hflat

/-- C4: `add_record` appends the record to the active launch iff no sampling
target is set or the flattened sampling target equals the flattened active
grid index (`claimAccepts`), and in the (2, 2, 1)-grid scenario with sampling
target (0, 1) only cell (0, 1, 0) accepts any record — its own Grid marker —
while the other three cells produce zero records. -/
theorem add_record_sampling_filter :
    (∀ (rb : RecordBuilder) (r : Record), rb._launches ≠ [] → samplingOk rb →
      ∃ rb', rb.add_record r = .ok rb' ∧
        (claimAccepts rb → lastRecords rb' = lastRecords rb ++ [r]) ∧
        (¬claimAccepts rb → rb' = rb)) ∧
    samplingScenario.map lastRecords = .ok [Record.grid (0, 1, 0)] := by
  refine ⟨?_, by rfl⟩
  intro rb r hl hs
  obtain ⟨rb', hok, htrue, hfalse, _⟩ := add_record_ok rb r hl
  refine ⟨rb', hok, ?_, ?_⟩
  · intro hacc
    exact htrue ((shouldRecord_iff_claimAccepts rb hs).mpr hacc)
  · intro hacc
    cases h : rb.shouldRecord with
    | true => exact absurd ((shouldRecord_iff_claimAccepts rb hs).mp h) hacc
    | false => exact hfalse h

/-- C5 as amended: `set_grid_idx` checks only the upper bounds. It succeeds
and updates the active index whenever every component is strictly below its
bound — components below zero included — appending the Grid marker through
`add_record` (so subject to the sampling filter); it fails with the
`assert`'s error exactly when some component is at or above its bound. -/
theorem set_grid_idx_upper_bound_check (rb : RecordBuilder) (x y z : Int)
    (hl : rb._launches ≠ []) :
    (x < rb._grid_dim.1 ∧ y < rb._grid_dim.2.1 ∧ z < rb._grid_dim.2.2 →
      ∃ rb', rb.set_grid_idx x y z = .ok rb' ∧ rb'._grid_idx = (x, y, z) ∧
        lastRecords rb' = lastRecords rb ++
          (if ({ rb with _grid_idx := (x, y, z) } : RecordBuilder).shouldRecord
            then [Record.grid (x, y, z)] else [])) ∧
    (¬(x < rb._grid_dim.1 ∧ y < rb._grid_dim.2.1 ∧ z < rb._grid_dim.2.2) →
      rb.set_grid_idx x y z = .error .assertionError) := by
  constructor
  · intro hbound
    rw [RecordBuilder.set_grid_idx, if_pos hbound]
    obtain ⟨rb', hok, htrue, hfalse, hidx⟩ :=
      add_record_ok { rb with _grid_idx := (x, y, z) } (.grid (x, y, z)) hl
    refine ⟨rb', hok, hidx, ?_⟩
    cases h : ({ rb with _grid_idx := (x, y, z) } : RecordBuilder).shouldRecord with
    | true => rw [if_pos rfl, htrue h]; rfl
    | false => rw [if_neg (by simp), hfalse h, List.append_nil]; rfl
  · intro hbound
    rw [RecordBuilder.set_grid_idx, if_neg hbound]

/-- Witness for C5's amended theorem at grid shape (2, 2, 1) and
cell (0, 0, 0). -/
theorem set_grid_idx_upper_bound_check_witness :
    (0 < rbTwo._grid_dim.1 ∧ 0 < rbTwo._grid_dim.2.1 ∧ 0 < rbTwo._grid_dim.2.2 →
      ∃ rb', rbTwo.set_grid_idx 0 0 0 = .ok rb' ∧ rb'._grid_idx = (0, 0, 0) ∧
        lastRecords rb' = lastRecords rbTwo ++
          (if ({ rbTwo with _grid_idx := (0, 0, 0) } : RecordBuilder).shouldRecord
            then [Record.grid (0, 0, 0)] else [])) ∧
    (¬(0 < rbTwo._grid_dim.1 ∧ 0 < rbTwo._grid_dim.2.1 ∧ 0 < rbTwo._grid_dim.2.2) →
      rbTwo.set_grid_idx 0 0 0 = .error .assertionError) :=
  set_grid_idx_upper_bound_check rbTwo 0 0 0 (by decide)

/-- Counterexample to C5 as stated: with grid shape (2, 2, 1) the component
`x = -1` is below zero, yet `set_grid_idx(-1, 0, 0)` does not fail — it
succeeds, sets the active index to (-1, 0, 0) and appends its Grid marker
(the source asserts only the upper bounds). -/
theorem set_grid_idx_negative_component_accepted :
    (rbTwo.set_grid_idx (-1) 0 0).map (fun rb => (rb._grid_idx, lastRecords rb)) =
      .ok ((-1, 0, 0), [Record.grid (-1, 0, 0)]) := by rfl

/-- Closed form of `check_out_of_bounds_access` on a non-empty batch whose
first address resolves to `t`. -/
theorem check_oob_eq (tensors : List Tensor) (first : Int) (rest : List Int)
    (t : Tensor) (hres : get_tensor_ptr tensors first = .ok t) :
    check_out_of_bounds_access tensors (first :: rest) =
      .ok (t,
        ((first :: rest).map fun p => p - t.ptr).map (fun o =>
          decide (0 ≤ o) && decide (o < (npProd t.shape : Int) * t.element_size)),
        (((first :: rest).map fun p => p - t.ptr).map (fun o =>
          decide (0 ≤ o) && decide (o < (npProd t.shape : Int) * t.element_size))).map (! ·),
        ((((first :: rest).map fun p => p - t.ptr).zip
          (((first :: rest).map fun p => p - t.ptr).map (fun o =>
            decide (0 ≤ o) && decide (o < (npProd t.shape : Int) * t.element_size)))).map
          fun p => if p.2 then p.1 else 0),
        (first :: rest).map fun p => p - t.ptr) := by
  unfold check_out_of_bounds_access
  dsimp only
  rw [hres]
  rfl

/-- C1: for a non-empty batch whose first address resolves to tensor `t`,
`check_out_of_bounds_access` returns `t` together with the elementwise raw
offsets (address minus the owning tensor's base), the validity mask
`0 ≤ offset < product(shape) * element_size`, its elementwise negation, and
the offsets zeroed where invalid; in particular, for a tensor with base 1000,
shape (4, 4) and element size 4, the addresses [1000, 1032, 1064, 2000] give
raw offsets [0, 32, 64, 1000], valid mask [true, true, false, false], invalid
mask [false, false, true, true] and corrected offsets [0, 32, 0, 0]. -/
theorem check_out_of_bounds_access_spec :
    (∀ (registry : List Tensor) (first : Int) (rest : List Int) (t : Tensor),
      get_tensor_ptr registry first = .ok t →
      ∃ valid invalid corrected offsets,
        check_out_of_bounds_access registry (first :: rest) =
          .ok (t, valid, invalid, corrected, offsets) ∧
        offsets.length = (first :: rest).length ∧
        valid.length = (first :: rest).length ∧
        invalid.length = (first :: rest).length ∧
        corrected.length = (first :: rest).length ∧
        ∀ k, k < (first :: rest).length →
          offsets.getD k 0 = (first :: rest).getD k 0 - t.ptr ∧
          (valid.getD k false = true ↔
            0 ≤ offsets.getD k 0 ∧
              offsets.getD k 0 < (npProd t.shape : Int) * t.element_size) ∧
          invalid.getD k true = !valid.getD k false ∧
          corrected.getD k 0 =
            if valid.getD k false = true then offsets.getD k 0 else 0) ∧
    check_out_of_bounds_access [scenarioTensor] [1000, 1032, 1064, 2000] =
      .ok (scenarioTensor, [true, true, false, false], [false, false, true, true],
        [0, 32, 0, 0], [0, 32, 64, 1000]) := by
  refine ⟨?_, by rfl⟩
  intro registry first rest t hres
  refine ⟨_, _, _, _, check_oob_eq registry first rest t hres, ?_, ?_, ?_, ?_, ?_⟩
  · rw [List.length_map]
  · rw [List.length_map, List.length_map]
  · rw [List.length_map, List.length_map, List.length_map]
  · rw [List.length_map, List.length_zip, List.length_map, List.length_map,
      List.length_map, min_self]
  · intro k hk
    have hoff : k < ((first :: rest).map fun p => p - t.ptr).length := by
      rw [List.length_map]; exact hk
    have hval : k < (((first :: rest).map fun p => p - t.ptr).map fun o =>
        decide (0 ≤ o) && decide (o < (npProd t.shape : Int) * t.element_size)).length := by
      rw [List.length_map, List.length_map]; exact hk
    refine ⟨getD_map_of_lt _ _ 0 0 k hk, ?_, ?_, ?_⟩
    · rw [getD_map_of_lt _ _ false 0 k hoff]
      simp [Bool.and_eq_true, decide_eq_true_eq]
    · rw [getD_map_of_lt _ _ true false k hval]
    · rw [getD_map_of_lt _ _ 0 (0, false) k
        (by rw [List.length_zip]; exact lt_min hoff hval),
        getD_zip_of_lt _ _ 0 false k hoff hval]

/-- C7: `check_out_of_bounds_access` never fails because of out-of-range
addresses — on a non-empty registry it returns the five-tuple normally for
every non-empty address batch, and fails with the empty-indexing error
exactly when the address batch is empty. -/
theorem check_out_of_bounds_access_total (registry : List Tensor)
    (ptrs : List Int) (hreg : registry ≠ []) :
    (ptrs = [] → check_out_of_bounds_access registry ptrs = .error .indexError) ∧
    (ptrs ≠ [] → ∃ out, check_out_of_bounds_access registry ptrs = .ok out) := by
  constructor
  · rintro rfl
    rfl
  · intro hne
    cases ptrs with
    | nil => exact absurd rfl hne
    | cons first rest =>
      cases registry with
      | nil => exact absurd rfl hreg
      | cons t0 ts =>
        exact ⟨_, check_oob_eq (t0 :: ts) first rest (get_tensor_ptr_go t0 ts first) rfl⟩

/-- Witness for C7 at a one-tensor registry and a one-address batch. -/
theorem check_out_of_bounds_access_total_witness :
    (([1000] : List Int) = [] →
      check_out_of_bounds_access [scenarioTensor] [1000] = .error .indexError) ∧
    (([1000] : List Int) ≠ [] →
      ∃ out, check_out_of_bounds_access [scenarioTensor] [1000] = .ok out) :=
  check_out_of_bounds_access_total [scenarioTensor] [1000] (by decide)

/-- C8: the owning tensor resolved by `check_out_of_bounds_access` depends
only on the first element of the flattened address batch and the registry:
two non-empty batches with equal first elements resolve to the same tensor,
whatever their other addresses. -/
theorem resolved_tensor_depends_only_on_first_address (registry : List Tensor)
    (b1 b2 : List Int) (h1 : b1 ≠ []) (h2 : b2 ≠ []) (hh : b1.head? = b2.head?) :
    (check_out_of_bounds_access registry b1).map (fun out => out.1) =
      (check_out_of_bounds_access registry b2).map (fun out => out.1) := by
  cases b1 with
  | nil => exact absurd rfl h1
  | cons a1 t1 =>
    cases b2 with
    | nil => exact absurd rfl h2
    | cons a2 t2 =>
      rw [List.head?_cons, List.head?_cons] at hh
      injection hh with hh'
      subst hh'
      cases registry with
      | nil => rfl
      | cons t0 ts =>
        rw [check_oob_eq (t0 :: ts) a1 t1 (get_tensor_ptr_go t0 ts a1) rfl,
          check_oob_eq (t0 :: ts) a1 t2 (get_tensor_ptr_go t0 ts a1) rfl]
        rfl

/-- Witness for C8: two batches sharing the first address 1000 but differing
everywhere else resolve to the same tensor. -/
theorem resolved_tensor_depends_only_on_first_address_witness :
    (check_out_of_bounds_access [scenarioTensor] [1000, 1032]).map (fun out => out.1) =
      (check_out_of_bounds_access [scenarioTensor] [1000, 999999, 5]).map
        (fun out => out.1) :=
  resolved_tensor_depends_only_on_first_address [scenarioTensor] [1000, 1032]
    [1000, 999999, 5] (by decide) (by decide) (by rfl)

/-- The argument loop fails with the contiguity `assert`'s error whenever
some tensor argument fails `_check_storage_contiguous`. -/
theorem collectTensors_error (args : List PyArg)
    (h : ∃ a ∈ args, a.is_constexpr = false ∧ a.has_data_ptr = true ∧
      _check_storage_contiguous a.shape a.stride = false) :
    collectTensors args = .error .assertionError := by
  induction args with
  | nil => simp at h
  | cons a rest ih =>
    obtain ⟨b, hb, hbc, hbd, hbf⟩ := h
    rw [collectTensors]
    rcases List.mem_cons.mp hb with rfl | hbrest
    · rw [if_neg (by simp [hbc]), if_pos hbd, if_neg (by simp [hbf])]
    · by_cases hac : a.is_constexpr = true
      · rw [if_pos hac]
        exact ih ⟨b, hbrest, hbc, hbd, hbf⟩
      · rw [if_neg hac]
        by_cases had : a.has_data_ptr = true
        · rw [if_pos had]
          by_cases hch : _check_storage_contiguous a.shape a.stride = true
          · rw [if_pos hch, ih ⟨b, hbrest, hbc, hbd, hbf⟩]
            rfl
          · rw [if_neg hch]
        · rw [if_neg had]
          exact ih ⟨b, hbrest, hbc, hbd, hbf⟩

/-- C6: if any tensor argument fails the contiguity check, the whole call
aborts with the `assert`'s error. The failure happens in the argument loop,
which runs before `set_grid_dim` opens a Launch and before `add_tensors`
registers anything, so no launch, tensor or record of the invocation is ever
appended and the session's launches are left exactly as they were. -/
theorem grid_executor_call_aborts_on_bad_layout (rb : RecordBuilder)
    (args : List PyArg) (grid : Int × Int × Int)
    (h : ∃ a ∈ args, a.is_constexpr = false ∧ a.has_data_ptr = true ∧
      _check_storage_contiguous a.shape a.stride = false) :
    _grid_executor_call rb args grid = .error .assertionError := by
  unfold _grid_executor_call
  rw [collectTensors_error args h]
  rfl

/-- Witness for C6: a single tensor argument with strides (8, 2) aborts the
call. -/
theorem grid_executor_call_aborts_on_bad_layout_witness :
    _grid_executor_call RecordBuilder.reset [badArg] (1, 1, 1) =
      .error .assertionError :=
  grid_executor_call_aborts_on_bad_layout RecordBuilder.reset [badArg] (1, 1, 1)
    ⟨badArg, List.mem_singleton_self _, rfl, rfl, by rfl⟩

end TritonViz
